import Mathlib

/-!
# ShellReceipt validation server (`ValidationServer/Server-go/main.go`)

A shallow embedding of the receipt relay: the status translator
`getStatusMessage`, the orchestrator `verifyReceipt` and the HTTP handler
`verifyHandler`, followed by the properties proved about them.

The vendor (the two App Store endpoints reached through `http.Client.Post`,
`io.ReadAll` and `json.Unmarshal`) is an oracle: given the outbound calls made
so far and the current call it answers with one of the three failures the
code distinguishes or with a decoded `AppleResponse`.  The Go recursion of
`verifyReceipt` has no depth bound, so the embedding carries a fuel argument
that bounds the number of nested invocations; a run that needs more reports
no result.
-/

namespace ShellReceipt

/-! ## Constants and data model -/

def SandboxURL : String := "https://sandbox.itunes.apple.com/verifyReceipt"

def ProductionURL : String := "https://buy.itunes.apple.com/verifyReceipt"

/-- A decoded JSON value held in a Go `any`; numbers keep their literal text. -/
inductive Any where
  | null
  | bool (b : Bool)
  | number (literal : String)
  | string (s : String)
  | array (items : List Any)
  | object (members : List (String × Any))

/-- Go `map[string]any`: `none` is the nil map, `some kvs` a map with the listed entries. -/
abbrev GoMap := Option (List (String × Any))

/-- Go `[]map[string]any`: `none` is the nil slice. -/
abbrev GoMapSlice := Option (List GoMap)

/-- Go `len` of a map. -/
def GoMap.len : GoMap → Nat
  | none => 0
  | some kvs => kvs.length

/-- Go `len` of a slice. -/
def GoMapSlice.len : GoMapSlice → Nat
  | none => 0
  | some xs => xs.length

structure VerifyRequest where
  Receipt : String
  SharedSecret : String
  Sandbox : Bool

structure AppleVerifyPayload where
  ReceiptData : String
  Password : String
  ExcludeOldTransactions : Bool

structure AppleResponse where
  Status : Int
  Receipt : GoMap
  LatestReceiptInfo : GoMapSlice
  PendingRenewalInfo : GoMapSlice
  Error : String

structure VerifyResponse where
  Valid : Bool
  Status : Int
  Receipt : GoMap
  LatestReceiptInfo : GoMapSlice
  PendingRenewalInfo : GoMapSlice
  Error : String

/-! ## JSON encoding of the two structs that are marshalled -/

/-- The value of one member of an encoded JSON object. -/
inductive FieldValue where
  | bool (b : Bool)
  | int (n : Int)
  | string (s : String)
  | object (m : GoMap)
  | array (xs : GoMapSlice)

/-- An encoded JSON object: its members in struct-field order. -/
abbrev JSONObject := List (String × FieldValue)

/-- The member names of an encoded object. -/
def JSONObject.keys (o : JSONObject) : List String := o.map Prod.fst

/-- The JSON object `encoding/json` writes for an `AppleVerifyPayload`, following the
struct tags `receipt-data`, `password,omitempty`, `exclude-old-transactions`. -/
def encodeAppleVerifyPayload (p : AppleVerifyPayload) : JSONObject :=
  [("receipt-data", FieldValue.string p.ReceiptData)]
    ++ (if p.Password = "" then [] else [("password", FieldValue.string p.Password)])
    ++ [("exclude-old-transactions", FieldValue.bool p.ExcludeOldTransactions)]

/-- `json.Marshal` on an `AppleVerifyPayload`: encoding a struct of two strings and a
bool has no failing case. -/
def marshalAppleVerifyPayload (p : AppleVerifyPayload) : Except String JSONObject :=
  .ok (encodeAppleVerifyPayload p)

/-- `json.NewEncoder(w).Encode` on a `VerifyResponse`, following the struct tags:
`valid` and `status` always, the other four `omitempty`. -/
def encodeVerifyResponse (v : VerifyResponse) : JSONObject :=
  [("valid", FieldValue.bool v.Valid), ("status", FieldValue.int v.Status)]
    ++ (if v.Receipt.len = 0 then [] else [("receipt", FieldValue.object v.Receipt)])
    ++ (if v.LatestReceiptInfo.len = 0 then []
        else [("latest_receipt_info", FieldValue.array v.LatestReceiptInfo)])
    ++ (if v.PendingRenewalInfo.len = 0 then []
        else [("pending_renewal_info", FieldValue.array v.PendingRenewalInfo)])
    ++ (if v.Error = "" then [] else [("error", FieldValue.string v.Error)])

/-! ## The vendor -/

/-- One `client.Post(url, contentType, body)`. -/
structure OutboundCall where
  url : String
  contentType : String
  body : JSONObject

/-- What one outbound call comes to in `verifyReceipt`: `client.Post` fails,
`io.ReadAll` fails, `json.Unmarshal` fails, or the body decodes. -/
inductive VendorReply where
  | postFailed (err : String)
  | readFailed (err : String)
  | unmarshalFailed (err : String)
  | decoded (result : AppleResponse)

/-- The vendor: from the calls already made and the current call to its outcome. -/
abbrev Vendor := List OutboundCall → OutboundCall → VendorReply

/-- The text of the transport error of a reply, if it is one. -/
def VendorReply.transportError : VendorReply → Option String
  | .postFailed err => some err
  | .readFailed err => some err
  | .unmarshalFailed err => some err
  | .decoded _ => none

/-! ## `verifyReceipt` -/

/-- A run of `verifyReceipt`: the outbound calls made, in order, and the
returned `(*AppleResponse, error)` pair, or `none` when the fuel ran out. -/
structure Run where
  calls : List OutboundCall
  result : Option (Except String AppleResponse)

/-- The function `verifyReceipt` of `main.go`, lines 46-91.  `log` holds the outbound calls made
before this invocation; `fuel` bounds the depth of the recursion on 21007. -/
def verifyReceipt (vendor : Vendor) :
    Nat → List OutboundCall → String → String → Bool → Run
  | 0, log, _, _, _ => ⟨log, none⟩
  | fuel + 1, log, receiptData, sharedSecret, useSandbox =>
    let url := if useSandbox then SandboxURL else ProductionURL
    let payload : AppleVerifyPayload :=
      { ReceiptData := receiptData, Password := "", ExcludeOldTransactions := true }
    let payload := if sharedSecret ≠ "" then { payload with Password := sharedSecret } else payload
    match marshalAppleVerifyPayload payload with
    | .error err => ⟨log, some (.error err)⟩
    | .ok jsonData =>
      let call : OutboundCall := ⟨url, "application/json", jsonData⟩
      match vendor log call with
      | .postFailed err => ⟨log ++ [call], some (.error err)⟩
      | .readFailed err => ⟨log ++ [call], some (.error err)⟩
      | .unmarshalFailed err => ⟨log ++ [call], some (.error err)⟩
      | .decoded result =>
        if result.Status = 21007 then
          verifyReceipt vendor fuel (log ++ [call]) receiptData sharedSecret true
        else
          ⟨log ++ [call], some (.ok result)⟩

/-! ## `getStatusMessage` -/

/-- The map literal `messages` of `getStatusMessage`. -/
def messages : List (Int × String) :=
  [ (0, "Valid receipt"),
    (21000, "The App Store could not read the JSON object"),
    (21002, "The receipt-data property was malformed or missing"),
    (21003, "The receipt could not be authenticated"),
    (21004, "The shared secret does not match"),
    (21005, "The receipt server is not currently available"),
    (21006, "Valid but subscription has expired"),
    (21007, "This receipt is from the test environment"),
    (21008, "This receipt is from the production environment"),
    (21009, "Internal data access error"),
    (21010, "User account cannot be found or has been deleted") ]

/-- The verb `%d` of `fmt.Sprintf` on an `int`: decimal digits, `-` in front of a negative. -/
def formatInt (n : Int) : String :=
  match n with
  | Int.ofNat m => Nat.repr m
  | Int.negSucc m => "-" ++ Nat.repr (m + 1)

/-- The function `getStatusMessage` of `main.go`, lines 93-112. -/
def getStatusMessage (status : Int) : String :=
  match messages.lookup status with
  | some msg => msg
  | none => "Unknown status code: " ++ formatInt status

/-! ## `verifyHandler` -/

/-- The inbound request as the handler sees it: the method and what
`json.NewDecoder(r.Body).Decode(&req)` gives on the body. -/
structure Request where
  Method : String
  Decoded : Except String VerifyRequest

/-- What is written to the `http.ResponseWriter`. -/
inductive ResponseBody where
  | text (s : String)
  | json (v : VerifyResponse)

structure Response where
  StatusCode : Nat
  ContentType : String
  Body : ResponseBody

/-- `http.Error(w, msg, code)`: plain text, the message followed by a newline. -/
def httpError (msg : String) (code : Nat) : Response :=
  ⟨code, "text/plain; charset=utf-8", .text (msg ++ "\n")⟩

/-- A run of `verifyHandler`: outbound calls made, the arguments `getStatusMessage`
was called with, and the response written (`none` when `verifyReceipt` ran out of fuel). -/
structure HandlerRun where
  calls : List OutboundCall
  statusLookups : List Int
  response : Option Response

/-- The function `verifyHandler` of `main.go`, lines 114-159. -/
def verifyHandler (vendor : Vendor) (fuel : Nat) (r : Request) : HandlerRun :=
  if r.Method ≠ "POST" then
    ⟨[], [], some (httpError "Method not allowed" 405)⟩
  else
    match r.Decoded with
    | .error _ => ⟨[], [], some (httpError "Missing receipt data" 400)⟩
    | .ok req =>
      let run := verifyReceipt vendor fuel [] req.Receipt req.SharedSecret req.Sandbox
      match run.result with
      | none => ⟨run.calls, [], none⟩
      | some (.error err) =>
        let resp : VerifyResponse :=
          { Valid := false, Status := -1, Receipt := none, LatestReceiptInfo := none,
            PendingRenewalInfo := none, Error := err }
        ⟨run.calls, [], some ⟨500, "application/json", .json resp⟩⟩
      | some (.ok result) =>
        if result.Status = 0 then
          let resp : VerifyResponse :=
            { Valid := true, Status := result.Status, Receipt := result.Receipt,
              LatestReceiptInfo := result.LatestReceiptInfo,
              PendingRenewalInfo := result.PendingRenewalInfo, Error := "" }
          ⟨run.calls, [], some ⟨200, "application/json", .json resp⟩⟩
        else
          let resp : VerifyResponse :=
            { Valid := false, Status := result.Status, Receipt := none,
              LatestReceiptInfo := none, PendingRenewalInfo := none,
              Error := getStatusMessage result.Status }
          ⟨run.calls, [result.Status], some ⟨400, "application/json", .json resp⟩⟩

/-! ## Reference definition of the status translator -/

/-- The translator as the specification words it: a fixed table over the known
codes, and for any other code a string that embeds the code. -/
def describe (statusCode : Int) : String :=
  if statusCode = 0 then "Valid receipt"
  else if statusCode = 21000 then "The App Store could not read the JSON object"
  else if statusCode = 21002 then "The receipt-data property was malformed or missing"
  else if statusCode = 21003 then "The receipt could not be authenticated"
  else if statusCode = 21004 then "The shared secret does not match"
  else if statusCode = 21005 then "The receipt server is not currently available"
  else if statusCode = 21006 then "Valid but subscription has expired"
  else if statusCode = 21007 then "This receipt is from the test environment"
  else if statusCode = 21008 then "This receipt is from the production environment"
  else if statusCode = 21009 then "Internal data access error"
  else if statusCode = 21010 then "User account cannot be found or has been deleted"
  else "Unknown status code: " ++ formatInt statusCode

/-- The codes of the table. -/
def knownCodes : List Int :=
  [0, 21000, 21002, 21003, 21004, 21005, 21006, 21007, 21008, 21009, 21010]

/-! ## Auxiliary definitions for the statements -/

/-- The call one invocation of `verifyReceipt` posts (lines 47-70). -/
def postedCall (receiptData sharedSecret : String) (useSandbox : Bool) : OutboundCall :=
  ⟨if useSandbox then SandboxURL else ProductionURL, "application/json",
    encodeAppleVerifyPayload ⟨receiptData, sharedSecret, true⟩⟩

/-- A vendor that answers 21007 on every call, sandbox included. -/
def vendorAlways21007 : Vendor :=
  fun _ _ => .decoded ⟨21007, none, none, none, ""⟩

/-- A vendor whose first answer is 21007 and whose later answers are a valid
receipt that also carries an error text. -/
def vendorSandboxReceipt : Vendor :=
  fun log _ =>
    match log with
    | [] => .decoded ⟨21007, none, none, none, ""⟩
    | _ :: _ => .decoded ⟨0, some [("bundle_id", Any.string "com.x")], none, none, "note"⟩

/-- A vendor that rejects with 21002 while still sending receipt documents. -/
def vendorRejecting : Vendor :=
  fun _ _ =>
    .decoded ⟨21002, some [("bundle_id", Any.string "com.x")], some [some []], none, "bad"⟩

/-- A vendor that cannot be reached. -/
def vendorUnreachable : Vendor :=
  fun _ _ => .postFailed "connection refused"

/-- A vendor whose response body cannot be read, the read error having the very text
of the table entry for 21007. -/
def vendorReadErrorWithTableText : Vendor :=
  fun _ _ => .readFailed "This receipt is from the test environment"

/-! ## Unfolding lemmas -/

theorem verifyReceipt_zero (vendor : Vendor) (log : List OutboundCall)
    (receiptData sharedSecret : String) (useSandbox : Bool) :
    verifyReceipt vendor 0 log receiptData sharedSecret useSandbox = ⟨log, none⟩ := rfl

theorem verifyReceipt_succ (vendor : Vendor) (fuel : Nat) (log : List OutboundCall)
    (receiptData sharedSecret : String) (useSandbox : Bool) :
    verifyReceipt vendor (fuel + 1) log receiptData sharedSecret useSandbox =
      match vendor log (postedCall receiptData sharedSecret useSandbox) with
      | .postFailed err =>
        ⟨log ++ [postedCall receiptData sharedSecret useSandbox], some (.error err)⟩
      | .readFailed err =>
        ⟨log ++ [postedCall receiptData sharedSecret useSandbox], some (.error err)⟩
      | .unmarshalFailed err =>
        ⟨log ++ [postedCall receiptData sharedSecret useSandbox], some (.error err)⟩
      | .decoded result =>
        if result.Status = 21007 then
          verifyReceipt vendor fuel (log ++ [postedCall receiptData sharedSecret useSandbox])
            receiptData sharedSecret true
        else
          ⟨log ++ [postedCall receiptData sharedSecret useSandbox], some (.ok result)⟩ := by
  by_cases hs : sharedSecret = ""
  · subst hs
    simp only [verifyReceipt, marshalAppleVerifyPayload, postedCall, ne_eq, not_true_eq_false,
      if_false]
  · simp only [verifyReceipt, marshalAppleVerifyPayload, postedCall, ne_eq, hs,
      not_false_eq_true, if_true]

/-! ## The status translator -/

theorem lookup_eq_none_of_not_mem (k : Int) (l : List (Int × String))
    (h : k ∉ l.map Prod.fst) : l.lookup k = none := by
  induction l with
  | nil => rfl
  | cons kv rest ih =>
    obtain ⟨a, b⟩ := kv
    simp only [List.map_cons, List.mem_cons, not_or] at h
    have hne : (k == a) = false := by simpa using h.1
    simp only [List.lookup, hne]
    exact ih h.2

theorem knownCodes_eq_keys : knownCodes = messages.map Prod.fst := rfl

theorem getStatusMessage_unknown (code : Int) (h : code ∉ knownCodes) :
    getStatusMessage code = "Unknown status code: " ++ formatInt code := by
  rw [knownCodes_eq_keys] at h
  simp only [getStatusMessage, lookup_eq_none_of_not_mem code messages h]

theorem describe_unknown (code : Int) (h : code ∉ knownCodes) :
    describe code = "Unknown status code: " ++ formatInt code := by
  simp only [knownCodes, List.mem_cons, List.mem_singleton, not_or, List.not_mem_nil,
    or_false] at h
  obtain ⟨h0, h1, h2, h3, h4, h5, h6, h7, h8, h9, h10⟩ := h
  simp [describe, h0, h1, h2, h3, h4, h5, h6, h7, h8, h9, h10]

theorem getStatusMessage_eq_describe (code : Int) : getStatusMessage code = describe code := by
  by_cases h : code ∈ knownCodes
  · simp only [knownCodes, List.mem_cons, List.mem_singleton, List.not_mem_nil, or_false] at h
    rcases h with h | h | h | h | h | h | h | h | h | h | h <;> subst h <;> rfl
  · rw [getStatusMessage_unknown code h, describe_unknown code h]

theorem unknown_prefix_ne (x : String) :
    "Unknown status code: " ++ x ≠ "This receipt is from the test environment" := by
  intro h
  have := congrArg String.data h
  simp at this

theorem unknown_prefix_ne_empty (x : String) : "Unknown status code: " ++ x ≠ "" := by
  intro h
  have := congrArg String.data h
  simp at this

theorem getStatusMessage_ne_empty (code : Int) : getStatusMessage code ≠ "" := by
  by_cases h : code ∈ knownCodes
  · simp only [knownCodes, List.mem_cons, List.mem_singleton, List.not_mem_nil, or_false] at h
    rcases h with h | h | h | h | h | h | h | h | h | h | h <;> subst h <;> decide
  · rw [getStatusMessage_unknown code h]
    exact unknown_prefix_ne_empty _

theorem getStatusMessage_ne_testEnvironment (code : Int) (h : code ≠ 21007) :
    getStatusMessage code ≠ "This receipt is from the test environment" := by
  by_cases hk : code ∈ knownCodes
  · simp only [knownCodes, List.mem_cons, List.mem_singleton, List.not_mem_nil, or_false] at hk
    rcases hk with hk | hk | hk | hk | hk | hk | hk | hk | hk | hk | hk <;> subst hk <;>
      first
        | exact absurd rfl h
        | decide
  · rw [getStatusMessage_unknown code hk]
    exact unknown_prefix_ne _

/-! ## Lemmas on `verifyReceipt` -/

theorem verifyReceipt_calls_extend (vendor : Vendor) (fuel : Nat) (log : List OutboundCall)
    (receiptData sharedSecret : String) (useSandbox : Bool) :
    ∃ rest, (verifyReceipt vendor fuel log receiptData sharedSecret useSandbox).calls
      = log ++ rest := by
  induction fuel generalizing log useSandbox with
  | zero => exact ⟨[], by simp [verifyReceipt_zero]⟩
  | succ n ih =>
    rw [verifyReceipt_succ]
    cases hv : vendor log (postedCall receiptData sharedSecret useSandbox) with
    | postFailed err => exact ⟨[_], rfl⟩
    | readFailed err => exact ⟨[_], rfl⟩
    | unmarshalFailed err => exact ⟨[_], rfl⟩
    | decoded result =>
      by_cases hs : result.Status = 21007
      · obtain ⟨rest, hrest⟩ :=
          ih (log ++ [postedCall receiptData sharedSecret useSandbox]) true
        refine ⟨postedCall receiptData sharedSecret useSandbox :: rest, ?_⟩
        simp only [hs, if_true, hrest, List.append_assoc, List.singleton_append]
      · exact ⟨[postedCall receiptData sharedSecret useSandbox], by simp only [hs, if_false]⟩

theorem verifyReceipt_first_call (vendor : Vendor) (fuel : Nat)
    (receiptData sharedSecret : String) (useSandbox : Bool) :
    ∃ rest, (verifyReceipt vendor (fuel + 1) [] receiptData sharedSecret useSandbox).calls
      = postedCall receiptData sharedSecret useSandbox :: rest := by
  rw [verifyReceipt_succ]
  cases hv : vendor [] (postedCall receiptData sharedSecret useSandbox) with
  | postFailed err => exact ⟨[], rfl⟩
  | readFailed err => exact ⟨[], rfl⟩
  | unmarshalFailed err => exact ⟨[], rfl⟩
  | decoded result =>
    by_cases hs : result.Status = 21007
    · obtain ⟨rest, hrest⟩ := verifyReceipt_calls_extend vendor fuel
        ([] ++ [postedCall receiptData sharedSecret useSandbox]) receiptData sharedSecret true
      refine ⟨rest, ?_⟩
      simp only [hs, if_true]
      rw [hrest]
      rfl
    · exact ⟨[], by simp only [hs, if_false, List.nil_append]⟩

theorem verifyReceipt_status_ne_21007 (vendor : Vendor) (fuel : Nat) (log : List OutboundCall)
    (receiptData sharedSecret : String) (useSandbox : Bool) (r : AppleResponse)
    (h : (verifyReceipt vendor fuel log receiptData sharedSecret useSandbox).result
      = some (.ok r)) :
    r.Status ≠ 21007 := by
  induction fuel generalizing log useSandbox with
  | zero => simp [verifyReceipt_zero] at h
  | succ n ih =>
    rw [verifyReceipt_succ] at h
    cases hv : vendor log (postedCall receiptData sharedSecret useSandbox) with
    | postFailed err => simp [hv] at h
    | readFailed err => simp [hv] at h
    | unmarshalFailed err => simp [hv] at h
    | decoded result =>
      simp only [hv] at h
      by_cases hs : result.Status = 21007
      · simp only [hs, if_true] at h
        exact ih _ _ h
      · simp only [hs, if_false, Option.some.injEq, Except.ok.injEq] at h
        exact h ▸ hs

theorem verifyReceipt_calls_body (vendor : Vendor) (fuel : Nat) (log : List OutboundCall)
    (receiptData sharedSecret : String) (useSandbox : Bool) (c : OutboundCall)
    (hc : c ∈ (verifyReceipt vendor fuel log receiptData sharedSecret useSandbox).calls) :
    c ∈ log ∨ (c.body = encodeAppleVerifyPayload ⟨receiptData, sharedSecret, true⟩
      ∧ c.contentType = "application/json"
      ∧ (c.url = ProductionURL ∨ c.url = SandboxURL)) := by
  have hposted : ∀ b : Bool,
      (postedCall receiptData sharedSecret b).body
          = encodeAppleVerifyPayload ⟨receiptData, sharedSecret, true⟩
        ∧ (postedCall receiptData sharedSecret b).contentType = "application/json"
        ∧ ((postedCall receiptData sharedSecret b).url = ProductionURL
          ∨ (postedCall receiptData sharedSecret b).url = SandboxURL) := by
    intro b
    cases b
    · exact ⟨rfl, rfl, Or.inl rfl⟩
    · exact ⟨rfl, rfl, Or.inr rfl⟩
  have hstep : ∀ (lg : List OutboundCall) (b : Bool),
      c ∈ lg ++ [postedCall receiptData sharedSecret b] →
      c ∈ lg ∨ (c.body = encodeAppleVerifyPayload ⟨receiptData, sharedSecret, true⟩
        ∧ c.contentType = "application/json"
        ∧ (c.url = ProductionURL ∨ c.url = SandboxURL)) := by
    intro lg b hmem
    rcases List.mem_append.mp hmem with hl | hl
    · exact Or.inl hl
    · rw [List.mem_singleton] at hl
      subst hl
      exact Or.inr (hposted b)
  induction fuel generalizing log useSandbox with
  | zero => exact Or.inl (by simpa [verifyReceipt_zero] using hc)
  | succ n ih =>
    rw [verifyReceipt_succ] at hc
    cases hv : vendor log (postedCall receiptData sharedSecret useSandbox) with
    | postFailed err => simp only [hv] at hc; exact hstep _ _ hc
    | readFailed err => simp only [hv] at hc; exact hstep _ _ hc
    | unmarshalFailed err => simp only [hv] at hc; exact hstep _ _ hc
    | decoded result =>
      simp only [hv] at hc
      by_cases hs : result.Status = 21007
      · simp only [hs, if_true] at hc
        rcases ih _ _ hc with hl | hr
        · exact hstep _ _ hl
        · exact Or.inr hr
      · simp only [hs, if_false] at hc
        exact hstep _ _ hc

theorem always21007_run (fuel : Nat) (log : List OutboundCall)
    (receiptData sharedSecret : String) (useSandbox : Bool) :
    (verifyReceipt vendorAlways21007 fuel log receiptData sharedSecret useSandbox).result = none
      ∧ (verifyReceipt vendorAlways21007 fuel log receiptData sharedSecret useSandbox).calls.length
        = log.length + fuel := by
  induction fuel generalizing log useSandbox with
  | zero => exact ⟨rfl, rfl⟩
  | succ n ih =>
    rw [verifyReceipt_succ]
    simp only [vendorAlways21007, if_true]
    obtain ⟨h1, h2⟩ := ih (log ++ [postedCall receiptData sharedSecret useSandbox]) true
    refine ⟨h1, ?_⟩
    rw [h2, List.length_append, List.length_singleton]
    omega

/-! ## The claims on `verifyReceipt` -/

/-- C1: when the production call decodes to status 21007 and the sandbox call that
follows decodes to a response whose status is not 21007, `verifyReceipt` (called with
`useSandbox = false`, any recursion depth of at least two allowed) makes exactly two
calls, the first to `ProductionURL` and the second to `SandboxURL` with the same body,
and returns the sandbox response. -/
theorem verifyReceipt_production_21007_then_sandbox (vendor : Vendor)
    (receipt secret : String) (first second : AppleResponse) (fuel : Nat)
    (hfirst : vendor []
        ⟨ProductionURL, "application/json", encodeAppleVerifyPayload ⟨receipt, secret, true⟩⟩
      = .decoded first)
    (hmismatch : first.Status = 21007)
    (hsecond : vendor
        [⟨ProductionURL, "application/json", encodeAppleVerifyPayload ⟨receipt, secret, true⟩⟩]
        ⟨SandboxURL, "application/json", encodeAppleVerifyPayload ⟨receipt, secret, true⟩⟩
      = .decoded second)
    (hfinal : second.Status ≠ 21007) :
    verifyReceipt vendor (fuel + 2) [] receipt secret false
      = ⟨[⟨ProductionURL, "application/json",
            encodeAppleVerifyPayload ⟨receipt, secret, true⟩⟩,
          ⟨SandboxURL, "application/json",
            encodeAppleVerifyPayload ⟨receipt, secret, true⟩⟩],
         some (.ok second)⟩ := by
  have e1 : postedCall receipt secret false
      = ⟨ProductionURL, "application/json",
          encodeAppleVerifyPayload ⟨receipt, secret, true⟩⟩ := rfl
  have e2 : postedCall receipt secret true
      = ⟨SandboxURL, "application/json",
          encodeAppleVerifyPayload ⟨receipt, secret, true⟩⟩ := rfl
  rw [verifyReceipt_succ, e1, hfirst]
  simp only [hmismatch, if_true, List.nil_append]
  rw [verifyReceipt_succ, e2, hsecond]
  simp only [hfinal, if_false, List.singleton_append]

theorem verifyReceipt_production_21007_then_sandbox_witness :
    verifyReceipt vendorSandboxReceipt 2 [] "abc" "" false
      = ⟨[⟨ProductionURL, "application/json",
            encodeAppleVerifyPayload ⟨"abc", "", true⟩⟩,
          ⟨SandboxURL, "application/json",
            encodeAppleVerifyPayload ⟨"abc", "", true⟩⟩],
         some (.ok ⟨0, some [("bundle_id", Any.string "com.x")], none, none, "note"⟩)⟩ :=
  verifyReceipt_production_21007_then_sandbox vendorSandboxReceipt "abc" ""
    ⟨21007, none, none, none, ""⟩
    ⟨0, some [("bundle_id", Any.string "com.x")], none, none, "note"⟩ 0
    rfl rfl rfl (by decide)

/-- C2, as the code has it: against a vendor that answers 21007 on every call, a run
allowed three nested invocations makes three outbound calls (production, then sandbox
twice) and has still not returned: the 21007 answer of the sandbox retry is retried
too.  The lemma `always21007_run` gives the same for every depth. -/
theorem verifyReceipt_always21007_third_call :
    verifyReceipt vendorAlways21007 3 [] "R1" "" false
      = ⟨[⟨ProductionURL, "application/json",
            [("receipt-data", FieldValue.string "R1"),
             ("exclude-old-transactions", FieldValue.bool true)]⟩,
          ⟨SandboxURL, "application/json",
            [("receipt-data", FieldValue.string "R1"),
             ("exclude-old-transactions", FieldValue.bool true)]⟩,
          ⟨SandboxURL, "application/json",
            [("receipt-data", FieldValue.string "R1"),
             ("exclude-old-transactions", FieldValue.bool true)]⟩],
         none⟩ := rfl

/-- C2, amended: when the answer to a sandbox call made after the first call is not a
decoded 21007, `verifyReceipt` returns after one or two outbound calls. -/
theorem verifyReceipt_at_most_two_calls (vendor : Vendor) (receipt secret : String)
    (useSandbox : Bool) (fuel : Nat)
    (hsettles : ∀ r : AppleResponse,
      vendor
          [⟨if useSandbox then SandboxURL else ProductionURL, "application/json",
            encodeAppleVerifyPayload ⟨receipt, secret, true⟩⟩]
          ⟨SandboxURL, "application/json", encodeAppleVerifyPayload ⟨receipt, secret, true⟩⟩
        = .decoded r → r.Status ≠ 21007) :
    ∃ res, (verifyReceipt vendor (fuel + 2) [] receipt secret useSandbox).result = some res
      ∧ 1 ≤ (verifyReceipt vendor (fuel + 2) [] receipt secret useSandbox).calls.length
      ∧ (verifyReceipt vendor (fuel + 2) [] receipt secret useSandbox).calls.length ≤ 2 := by
  have e1 : postedCall receipt secret useSandbox
      = ⟨if useSandbox then SandboxURL else ProductionURL, "application/json",
          encodeAppleVerifyPayload ⟨receipt, secret, true⟩⟩ := rfl
  have e2 : postedCall receipt secret true
      = ⟨SandboxURL, "application/json",
          encodeAppleVerifyPayload ⟨receipt, secret, true⟩⟩ := rfl
  rw [verifyReceipt_succ, e1]
  cases hv : vendor []
      ⟨if useSandbox then SandboxURL else ProductionURL, "application/json",
        encodeAppleVerifyPayload ⟨receipt, secret, true⟩⟩ with
  | postFailed err => exact ⟨.error err, rfl, by simp, by simp⟩
  | readFailed err => exact ⟨.error err, rfl, by simp, by simp⟩
  | unmarshalFailed err => exact ⟨.error err, rfl, by simp, by simp⟩
  | decoded result =>
    by_cases hs : result.Status = 21007
    · simp only [hs, if_true, List.nil_append]
      rw [verifyReceipt_succ, e2]
      cases hv2 : vendor
          [⟨if useSandbox then SandboxURL else ProductionURL, "application/json",
            encodeAppleVerifyPayload ⟨receipt, secret, true⟩⟩]
          ⟨SandboxURL, "application/json",
            encodeAppleVerifyPayload ⟨receipt, secret, true⟩⟩ with
      | postFailed err => exact ⟨.error err, rfl, by simp, by simp⟩
      | readFailed err => exact ⟨.error err, rfl, by simp, by simp⟩
      | unmarshalFailed err => exact ⟨.error err, rfl, by simp, by simp⟩
      | decoded second =>
        have hne := hsettles second hv2
        simp only [hne, if_false]
        exact ⟨.ok second, rfl, by simp, by simp⟩
    · simp only [hs, if_false]
      exact ⟨.ok result, rfl, by simp, by simp⟩

theorem verifyReceipt_at_most_two_calls_witness :
    ∃ res, (verifyReceipt vendorSandboxReceipt 2 [] "abc" "s3cret" false).result = some res
      ∧ 1 ≤ (verifyReceipt vendorSandboxReceipt 2 [] "abc" "s3cret" false).calls.length
      ∧ (verifyReceipt vendorSandboxReceipt 2 [] "abc" "s3cret" false).calls.length ≤ 2 :=
  verifyReceipt_at_most_two_calls vendorSandboxReceipt "abc" "s3cret" false 0
    (by
      intro r h
      simp only [vendorSandboxReceipt, VendorReply.decoded.injEq] at h
      rw [← h]
      decide)

/-- C5: when the first outbound call fails (in `client.Post`, in `io.ReadAll` or in
`json.Unmarshal`), `verifyReceipt` returns that error after this one call, the other
endpoint is not contacted, and `verifyHandler` answers 500 with `Valid = false`,
`Status = -1` and the error text. -/
theorem transport_failure_is_final (vendor : Vendor) (req : VerifyRequest) (err : String)
    (fuel : Nat)
    (hfail : (vendor []
        ⟨if req.Sandbox then SandboxURL else ProductionURL, "application/json",
          encodeAppleVerifyPayload ⟨req.Receipt, req.SharedSecret, true⟩⟩).transportError
      = some err) :
    verifyReceipt vendor (fuel + 1) [] req.Receipt req.SharedSecret req.Sandbox
        = ⟨[⟨if req.Sandbox then SandboxURL else ProductionURL, "application/json",
              encodeAppleVerifyPayload ⟨req.Receipt, req.SharedSecret, true⟩⟩],
            some (.error err)⟩
      ∧ (if req.Sandbox then ProductionURL else SandboxURL) ∉
          (verifyReceipt vendor (fuel + 1) [] req.Receipt req.SharedSecret
            req.Sandbox).calls.map OutboundCall.url
      ∧ verifyHandler vendor (fuel + 1) ⟨"POST", .ok req⟩
        = ⟨[⟨if req.Sandbox then SandboxURL else ProductionURL, "application/json",
              encodeAppleVerifyPayload ⟨req.Receipt, req.SharedSecret, true⟩⟩],
            [],
            some ⟨500, "application/json", .json ⟨false, -1, none, none, none, err⟩⟩⟩ := by
  have e1 : postedCall req.Receipt req.SharedSecret req.Sandbox
      = ⟨if req.Sandbox then SandboxURL else ProductionURL, "application/json",
          encodeAppleVerifyPayload ⟨req.Receipt, req.SharedSecret, true⟩⟩ := rfl
  have hrun : verifyReceipt vendor (fuel + 1) [] req.Receipt req.SharedSecret req.Sandbox
        = ⟨[⟨if req.Sandbox then SandboxURL else ProductionURL, "application/json",
              encodeAppleVerifyPayload ⟨req.Receipt, req.SharedSecret, true⟩⟩],
            some (.error err)⟩ := by
    rw [verifyReceipt_succ, e1]
    cases hv : vendor []
        ⟨if req.Sandbox then SandboxURL else ProductionURL, "application/json",
          encodeAppleVerifyPayload ⟨req.Receipt, req.SharedSecret, true⟩⟩ with
    | postFailed e =>
      rw [hv] at hfail
      simp only [VendorReply.transportError, Option.some.injEq] at hfail
      simp only [hfail, List.nil_append]
    | readFailed e =>
      rw [hv] at hfail
      simp only [VendorReply.transportError, Option.some.injEq] at hfail
      simp only [hfail, List.nil_append]
    | unmarshalFailed e =>
      rw [hv] at hfail
      simp only [VendorReply.transportError, Option.some.injEq] at hfail
      simp only [hfail, List.nil_append]
    | decoded r =>
      rw [hv] at hfail
      simp [VendorReply.transportError] at hfail
  refine ⟨hrun, ?_, ?_⟩
  · rw [hrun]
    cases req.Sandbox <;> simp [SandboxURL, ProductionURL]
  · simp only [verifyHandler, hrun, ne_eq, not_true_eq_false, if_false]

theorem transport_failure_is_final_witness :
    verifyReceipt vendorUnreachable 1 [] "abc" "" false
        = ⟨[⟨ProductionURL, "application/json", encodeAppleVerifyPayload ⟨"abc", "", true⟩⟩],
            some (.error "connection refused")⟩
      ∧ verifyHandler vendorUnreachable 1 ⟨"POST", .ok ⟨"abc", "", false⟩⟩
        = ⟨[⟨ProductionURL, "application/json", encodeAppleVerifyPayload ⟨"abc", "", true⟩⟩],
            [],
            some ⟨500, "application/json",
              .json ⟨false, -1, none, none, none, "connection refused"⟩⟩⟩ :=
  have h := transport_failure_is_final vendorUnreachable ⟨"abc", "", false⟩
    "connection refused" 0 rfl
  ⟨h.1, h.2.2⟩

/-- C7: every call `verifyReceipt` makes, the first and any retry, posts the encoding
of the payload with `ReceiptData` the receipt, `Password` the secret and
`ExcludeOldTransactions = true`; in that encoding `receipt-data` is the receipt,
`exclude-old-transactions` is `true`, and the `password` member is present exactly when
the secret is non-empty, so receipt `R1` with an empty secret sends no password. -/
theorem outbound_payload_fields (vendor : Vendor) (receipt secret : String)
    (useSandbox : Bool) (fuel : Nat) :
    (∀ c ∈ (verifyReceipt vendor fuel [] receipt secret useSandbox).calls,
        c.body = encodeAppleVerifyPayload
            { ReceiptData := receipt, Password := secret, ExcludeOldTransactions := true }
          ∧ c.contentType = "application/json")
      ∧ (verifyReceipt vendor (fuel + 1) [] receipt secret useSandbox).calls ≠ []
      ∧ List.lookup "receipt-data" (encodeAppleVerifyPayload ⟨receipt, secret, true⟩)
          = some (FieldValue.string receipt)
      ∧ List.lookup "exclude-old-transactions"
            (encodeAppleVerifyPayload ⟨receipt, secret, true⟩)
          = some (FieldValue.bool true)
      ∧ List.lookup "password" (encodeAppleVerifyPayload ⟨receipt, secret, true⟩)
          = (if secret = "" then none else some (FieldValue.string secret))
      ∧ ("password" ∈ (encodeAppleVerifyPayload ⟨receipt, secret, true⟩).keys ↔ secret ≠ "")
      ∧ encodeAppleVerifyPayload ⟨"R1", "", true⟩
          = [("receipt-data", FieldValue.string "R1"),
             ("exclude-old-transactions", FieldValue.bool true)] := by
  refine ⟨?_, ?_, ?_, ?_, ?_, ?_, rfl⟩
  · intro c hc
    rcases verifyReceipt_calls_body vendor fuel [] receipt secret useSandbox c hc with h | h
    · simp at h
    · exact ⟨h.1, h.2.1⟩
  · obtain ⟨rest, hrest⟩ := verifyReceipt_first_call vendor fuel receipt secret useSandbox
    rw [hrest]
    exact List.cons_ne_nil _ _
  · simp [encodeAppleVerifyPayload, List.lookup]
  · by_cases hs : secret = "" <;> simp [encodeAppleVerifyPayload, List.lookup, hs]
  · by_cases hs : secret = "" <;> simp [encodeAppleVerifyPayload, List.lookup, hs]
  · by_cases hs : secret = "" <;> simp [encodeAppleVerifyPayload, JSONObject.keys, hs]

/-- C8: the first outbound call goes to `SandboxURL` when `useSandbox` is true and to
`ProductionURL` otherwise; when it decodes to a response whose status is not 21007,
zero included, that call is the only one and the response is returned as it is. -/
theorem first_call_endpoint_and_no_retry (vendor : Vendor) (receipt secret : String)
    (useSandbox : Bool) (fuel : Nat) :
    (∃ rest, (verifyReceipt vendor (fuel + 1) [] receipt secret useSandbox).calls
        = ⟨if useSandbox then SandboxURL else ProductionURL, "application/json",
            encodeAppleVerifyPayload ⟨receipt, secret, true⟩⟩ :: rest)
      ∧ (∀ r : AppleResponse,
          vendor []
              ⟨if useSandbox then SandboxURL else ProductionURL, "application/json",
                encodeAppleVerifyPayload ⟨receipt, secret, true⟩⟩
            = .decoded r →
          r.Status ≠ 21007 →
          verifyReceipt vendor (fuel + 1) [] receipt secret useSandbox
            = ⟨[⟨if useSandbox then SandboxURL else ProductionURL, "application/json",
                  encodeAppleVerifyPayload ⟨receipt, secret, true⟩⟩],
                some (.ok r)⟩) := by
  have e1 : postedCall receipt secret useSandbox
      = ⟨if useSandbox then SandboxURL else ProductionURL, "application/json",
          encodeAppleVerifyPayload ⟨receipt, secret, true⟩⟩ := rfl
  refine ⟨?_, ?_⟩
  · rw [← e1]
    exact verifyReceipt_first_call vendor fuel receipt secret useSandbox
  · intro r hv hs
    rw [verifyReceipt_succ, e1, hv]
    simp only [hs, if_false, List.nil_append]

theorem first_call_endpoint_and_no_retry_witness :
    verifyReceipt vendorRejecting 1 [] "abc" "" true
      = ⟨[⟨SandboxURL, "application/json", encodeAppleVerifyPayload ⟨"abc", "", true⟩⟩],
          some (.ok ⟨21002, some [("bundle_id", Any.string "com.x")], some [some []], none,
            "bad"⟩)⟩ :=
  (first_call_endpoint_and_no_retry vendorRejecting "abc" "" true 0).2
    ⟨21002, some [("bundle_id", Any.string "com.x")], some [some []], none, "bad"⟩
    rfl (by decide)

theorem outbound_payload_fields_witness :
    ∀ c ∈ (verifyReceipt vendorSandboxReceipt 2 [] "R1" "" false).calls,
      c.body = encodeAppleVerifyPayload
          { ReceiptData := "R1", Password := "", ExcludeOldTransactions := true }
        ∧ c.contentType = "application/json" :=
  (outbound_payload_fields vendorSandboxReceipt "R1" "" false 2).1

/-! ## Lemmas on `verifyHandler` -/

theorem verifyHandler_calls (vendor : Vendor) (fuel : Nat) (req : VerifyRequest) :
    (verifyHandler vendor fuel ⟨"POST", .ok req⟩).calls
      = (verifyReceipt vendor fuel [] req.Receipt req.SharedSecret req.Sandbox).calls := by
  simp only [verifyHandler, ne_eq, not_true_eq_false, if_false]
  cases hres : (verifyReceipt vendor fuel [] req.Receipt req.SharedSecret req.Sandbox).result with
  | none => rfl
  | some res =>
    cases res with
    | error err => rfl
    | ok result =>
      by_cases hz : result.Status = 0
      · simp only [hz, if_true]
      · simp only [hz, if_false]

theorem verifyHandler_json_response (vendor : Vendor) (fuel : Nat) (rq : Request)
    (code : Nat) (ct : String) (v : VerifyResponse)
    (h : (verifyHandler vendor fuel rq).response = some ⟨code, ct, .json v⟩) :
    v.Status ≠ 21007
      ∧ (code ≠ 500 → v.Error ≠ "This receipt is from the test environment") := by
  obtain ⟨m, d⟩ := rq
  by_cases hm : m = "POST"
  · cases d with
    | error e => simp [verifyHandler, hm, httpError] at h
    | ok req =>
      simp only [verifyHandler, hm, ne_eq, not_true_eq_false, if_false] at h
      cases hres : (verifyReceipt vendor fuel [] req.Receipt req.SharedSecret
          req.Sandbox).result with
      | none => simp [hres] at h
      | some res =>
        cases res with
        | error err =>
          simp only [hres, Option.some.injEq, Response.mk.injEq,
            ResponseBody.json.injEq] at h
          obtain ⟨hcode, -, hv⟩ := h
          subst hv
          exact ⟨show (-1 : Int) ≠ 21007 by decide, fun hc => absurd hcode.symm hc⟩
        | ok result =>
          have hne := verifyReceipt_status_ne_21007 vendor fuel [] req.Receipt
            req.SharedSecret req.Sandbox result hres
          simp only [hres] at h
          by_cases hz : result.Status = 0
          · simp only [hz, if_true, Option.some.injEq, Response.mk.injEq,
              ResponseBody.json.injEq] at h
            obtain ⟨-, -, hv⟩ := h
            subst hv
            exact ⟨by simp [hz],
              fun _ => show ("" : String) ≠ "This receipt is from the test environment" by
                decide⟩
          · simp only [hz, if_false, Option.some.injEq, Response.mk.injEq,
              ResponseBody.json.injEq] at h
            obtain ⟨-, -, hv⟩ := h
            subst hv
            exact ⟨hne, fun _ => getStatusMessage_ne_testEnvironment _ hne⟩
  · simp [verifyHandler, hm, httpError] at h

theorem verifyHandler_statusLookups (vendor : Vendor) (fuel : Nat) (rq : Request) (s : Int)
    (h : s ∈ (verifyHandler vendor fuel rq).statusLookups) :
    s ≠ 0 ∧ s ≠ 21007 := by
  obtain ⟨m, d⟩ := rq
  by_cases hm : m = "POST"
  · cases d with
    | error e => simp [verifyHandler, hm] at h
    | ok req =>
      simp only [verifyHandler, hm, ne_eq, not_true_eq_false, if_false] at h
      cases hres : (verifyReceipt vendor fuel [] req.Receipt req.SharedSecret
          req.Sandbox).result with
      | none => simp [hres] at h
      | some res =>
        cases res with
        | error err => simp [hres] at h
        | ok result =>
          have hne := verifyReceipt_status_ne_21007 vendor fuel [] req.Receipt
            req.SharedSecret req.Sandbox result hres
          simp only [hres] at h
          by_cases hz : result.Status = 0
          · simp [hz] at h
          · simp only [hz, if_false, List.mem_singleton] at h
            subst h
            exact ⟨hz, hne⟩
  · simp [verifyHandler, hm] at h

/-! ## The claims on `verifyHandler` -/

/-- C3: when `verifyReceipt` returns a vendor outcome with status 0, `verifyHandler`
answers the POST with HTTP 200 and a `VerifyResponse` with `Valid = true`, `Status = 0`,
the three receipt fields of the outcome unchanged and `Error` empty, whatever error text
the outcome carried; the encoded body has no `error` member. -/
theorem verifyHandler_status_zero (vendor : Vendor) (fuel : Nat) (req : VerifyRequest)
    (outcome : AppleResponse)
    (hrun : (verifyReceipt vendor fuel [] req.Receipt req.SharedSecret req.Sandbox).result
      = some (.ok outcome))
    (hzero : outcome.Status = 0) :
    (verifyHandler vendor fuel ⟨"POST", .ok req⟩).response
        = some ⟨200, "application/json",
            .json ⟨true, 0, outcome.Receipt, outcome.LatestReceiptInfo,
              outcome.PendingRenewalInfo, ""⟩⟩
      ∧ "error" ∉ (encodeVerifyResponse ⟨true, 0, outcome.Receipt, outcome.LatestReceiptInfo,
          outcome.PendingRenewalInfo, ""⟩).keys
      ∧ (verifyHandler vendor fuel ⟨"POST", .ok req⟩).statusLookups = [] := by
  refine ⟨?_, ?_, ?_⟩
  · simp only [verifyHandler, hrun, hzero, ne_eq, not_true_eq_false, if_false, if_true]
  · simp only [encodeVerifyResponse, JSONObject.keys]
    split_ifs <;> simp
  · simp only [verifyHandler, hrun, hzero, ne_eq, not_true_eq_false, if_false, if_true]

theorem verifyHandler_status_zero_witness :
    (verifyHandler vendorSandboxReceipt 2 ⟨"POST", .ok ⟨"abc", "", false⟩⟩).response
      = some ⟨200, "application/json",
          .json ⟨true, 0, some [("bundle_id", Any.string "com.x")], none, none, ""⟩⟩ :=
  (verifyHandler_status_zero vendorSandboxReceipt 2 ⟨"abc", "", false⟩
    ⟨0, some [("bundle_id", Any.string "com.x")], none, none, "note"⟩ rfl rfl).1

/-- C4: when `verifyReceipt` returns a vendor outcome with a non-zero status `s`,
`verifyHandler` answers with HTTP 400 and a `VerifyResponse` with `Valid = false`,
`Status = s`, `Error = getStatusMessage s` and the three receipt fields nil, whatever the
outcome contained; the encoded body has the members `valid`, `status` and `error` only. -/
theorem verifyHandler_status_nonzero (vendor : Vendor) (fuel : Nat) (req : VerifyRequest)
    (outcome : AppleResponse)
    (hrun : (verifyReceipt vendor fuel [] req.Receipt req.SharedSecret req.Sandbox).result
      = some (.ok outcome))
    (hnonzero : outcome.Status ≠ 0) :
    (verifyHandler vendor fuel ⟨"POST", .ok req⟩).response
        = some ⟨400, "application/json",
            .json ⟨false, outcome.Status, none, none, none,
              getStatusMessage outcome.Status⟩⟩
      ∧ encodeVerifyResponse ⟨false, outcome.Status, none, none, none,
            getStatusMessage outcome.Status⟩
          = [("valid", FieldValue.bool false), ("status", FieldValue.int outcome.Status),
             ("error", FieldValue.string (getStatusMessage outcome.Status))] := by
  refine ⟨?_, ?_⟩
  · simp only [verifyHandler, hrun, hnonzero, ne_eq, not_true_eq_false, if_false]
  · simp [encodeVerifyResponse, GoMap.len, GoMapSlice.len,
      getStatusMessage_ne_empty outcome.Status]

theorem verifyHandler_status_nonzero_witness :
    (verifyHandler vendorRejecting 1 ⟨"POST", .ok ⟨"abc", "", false⟩⟩).response
      = some ⟨400, "application/json",
          .json ⟨false, 21002, none, none, none, getStatusMessage 21002⟩⟩ :=
  (verifyHandler_status_nonzero vendorRejecting 1 ⟨"abc", "", false⟩
    ⟨21002, some [("bundle_id", Any.string "com.x")], some [some []], none, "bad"⟩
    rfl (by decide)).1

/-- C9, the code at the failing input: an undecodable body is answered with 400 and no
vendor call, but a body that decodes to an empty receipt is passed to `verifyReceipt`,
which posts an empty `receipt-data` to `ProductionURL`; with a vendor that rejects it the
answer is the JSON rejection, not the plain-text error. -/
theorem verifyHandler_empty_receipt_reaches_vendor :
    (∀ (vendor : Vendor) (fuel : Nat) (e : String),
        verifyHandler vendor fuel ⟨"POST", .error e⟩
          = ⟨[], [], some ⟨400, "text/plain; charset=utf-8",
              .text "Missing receipt data\n"⟩⟩)
      ∧ (∀ (vendor : Vendor) (fuel : Nat),
        ∃ rest, (verifyHandler vendor (fuel + 1) ⟨"POST", .ok ⟨"", "", false⟩⟩).calls
          = ⟨ProductionURL, "application/json",
              [("receipt-data", FieldValue.string ""),
               ("exclude-old-transactions", FieldValue.bool true)]⟩ :: rest)
      ∧ verifyHandler vendorRejecting 1 ⟨"POST", .ok ⟨"", "", false⟩⟩
        = ⟨[⟨ProductionURL, "application/json",
              [("receipt-data", FieldValue.string ""),
               ("exclude-old-transactions", FieldValue.bool true)]⟩],
            [21002],
            some ⟨400, "application/json",
              .json ⟨false, 21002, none, none, none,
                "The receipt-data property was malformed or missing"⟩⟩⟩ := by
  refine ⟨?_, ?_, rfl⟩
  · intro vendor fuel e
    rfl
  · intro vendor fuel
    rw [verifyHandler_calls]
    exact verifyReceipt_first_call vendor fuel "" "" false

/-- C10, as the code has it: the text of a transport error is copied into `Error`
as it is (`err.Error()`, main.go 127-132), so when reading the response body fails with
an error whose text is the table entry of 21007, `verifyHandler` answers 500 with that
very message, after one call and without calling `getStatusMessage`. -/
theorem verifyHandler_transport_text_is_verbatim :
    verifyHandler vendorReadErrorWithTableText 1 ⟨"POST", .ok ⟨"abc", "", false⟩⟩
      = ⟨[⟨ProductionURL, "application/json",
            [("receipt-data", FieldValue.string "abc"),
             ("exclude-old-transactions", FieldValue.bool true)]⟩],
          [],
          some ⟨500, "application/json",
            .json ⟨false, -1, none, none, none,
              "This receipt is from the test environment"⟩⟩⟩ := rfl

/-- C10, amended: a response `verifyReceipt` returns without error never has status
21007; so no `VerifyResponse` written by `verifyHandler` has `Status = 21007`, no answer
other than the 500 of a transport error (whose `Error` is the error's own text) has the
message of 21007, and `getStatusMessage` is called only with codes that are neither 0
nor 21007. -/
theorem status_21007_never_surfaces (vendor : Vendor) (fuel : Nat) :
    (∀ (log : List OutboundCall) (receipt secret : String) (useSandbox : Bool)
        (r : AppleResponse),
        (verifyReceipt vendor fuel log receipt secret useSandbox).result = some (.ok r) →
        r.Status ≠ 21007)
      ∧ (∀ (rq : Request) (code : Nat) (ct : String) (v : VerifyResponse),
        (verifyHandler vendor fuel rq).response = some ⟨code, ct, .json v⟩ →
        v.Status ≠ 21007
          ∧ (code ≠ 500 → v.Error ≠ "This receipt is from the test environment"))
      ∧ (∀ (rq : Request) (s : Int),
        s ∈ (verifyHandler vendor fuel rq).statusLookups → s ≠ 0 ∧ s ≠ 21007) :=
  ⟨fun log receipt secret useSandbox r h =>
      verifyReceipt_status_ne_21007 vendor fuel log receipt secret useSandbox r h,
    fun rq code ct v h => verifyHandler_json_response vendor fuel rq code ct v h,
    fun rq s h => verifyHandler_statusLookups vendor fuel rq s h⟩

theorem status_21007_never_surfaces_witness :
    (0 : Int) ≠ 21007
      ∧ (200 ≠ 500 →
        ("" : String) ≠ "This receipt is from the test environment") :=
  (status_21007_never_surfaces vendorSandboxReceipt 2).2.1
    ⟨"POST", .ok ⟨"abc", "", false⟩⟩ 200 "application/json"
    ⟨true, 0, some [("bundle_id", Any.string "com.x")], none, none, ""⟩ rfl

/-! ## The claim on `getStatusMessage` -/

/-- C6: `getStatusMessage` is total and agrees with the reference definition `describe`
on every integer; on each of the eleven codes of the table it gives that entry's string,
and on every other integer (21001 and -1 among them) it gives `Unknown status code: `
followed by the decimal rendering of the code, so the result contains the code. -/
theorem getStatusMessage_spec :
    (∀ code : Int, getStatusMessage code = describe code)
      ∧ getStatusMessage 0 = "Valid receipt"
      ∧ getStatusMessage 21000 = "The App Store could not read the JSON object"
      ∧ getStatusMessage 21002 = "The receipt-data property was malformed or missing"
      ∧ getStatusMessage 21003 = "The receipt could not be authenticated"
      ∧ getStatusMessage 21004 = "The shared secret does not match"
      ∧ getStatusMessage 21005 = "The receipt server is not currently available"
      ∧ getStatusMessage 21006 = "Valid but subscription has expired"
      ∧ getStatusMessage 21007 = "This receipt is from the test environment"
      ∧ getStatusMessage 21008 = "This receipt is from the production environment"
      ∧ getStatusMessage 21009 = "Internal data access error"
      ∧ getStatusMessage 21010 = "User account cannot be found or has been deleted"
      ∧ (∀ code : Int, code ∉ knownCodes →
          getStatusMessage code = "Unknown status code: " ++ formatInt code
            ∧ ∃ before after : String,
                getStatusMessage code = before ++ formatInt code ++ after)
      ∧ getStatusMessage 21001 = "Unknown status code: 21001"
      ∧ getStatusMessage (-1) = "Unknown status code: -1" := by
  refine ⟨getStatusMessage_eq_describe, rfl, rfl, rfl, rfl, rfl, rfl, rfl, rfl, rfl, rfl, rfl,
    ?_, rfl, rfl⟩
  intro code h
  refine ⟨getStatusMessage_unknown code h, "Unknown status code: ", "", ?_⟩
  rw [getStatusMessage_unknown code h, String.append_empty]

theorem getStatusMessage_spec_witness :
    getStatusMessage (-21007) = "Unknown status code: " ++ formatInt (-21007)
      ∧ ∃ before after : String,
          getStatusMessage (-21007) = before ++ formatInt (-21007) ++ after :=
  getStatusMessage_spec.2.2.2.2.2.2.2.2.2.2.2.2.1 (-21007) (by decide)

end ShellReceipt
